import Mathlib

/-!
Shallow embedding of the option market-making script `algorithm.py`
(tick rounding, midpoint calculation, Black-Scholes dispatch, quote
updating and the trade loop), together with proofs of the specified
properties.  Prices are modelled as rationals (the Python source uses
floats; the specified properties are the ideal-arithmetic ones), volumes
and positions as integers, and the script's interaction with the
exchange SDK as an explicit trace of events.
-/

namespace Algorithm

/-- Rounds a price down to the nearest tick, e.g. if the tick size is 0.10,
a price of 0.97 will get rounded to 0.90.  Embeds
`floor(price / tick_size) * tick_size` from `algorithm.py` line 21. -/
def round_down_to_tick (price tick_size : ℚ) : ℚ :=
  (⌊price / tick_size⌋ : ℚ) * tick_size

/-- Rounds a price up to the nearest tick, e.g. if the tick size is 0.10,
a price of 1.34 will get rounded to 1.40.  Embeds
`ceil(price / tick_size) * tick_size` from `algorithm.py` line 28. -/
def round_up_to_tick (price tick_size : ℚ) : ℚ :=
  (⌈price / tick_size⌉ : ℚ) * tick_size

/-- One side of an order in the book: bid (buy) or ask (sell). -/
inductive Side where
  | bid
  | ask
deriving DecidableEq, Repr

/-- An outstanding order as returned by `exchange.get_outstanding_orders`:
the script only reads its side, volume and price (for logging) and its id
(to delete it). -/
structure Order where
  side : Side
  volume : ℤ
  price : ℚ
deriving DecidableEq, Repr

/-- A price book side is a list of levels; the script only reads the
`.price` field of the top level, so a side is modelled as the list of
level prices (best first). -/
structure OrderBook where
  bids : List ℚ
  asks : List ℚ
deriving DecidableEq, Repr

/-- Calculates the current midpoint of the order book supplied by the
exchange, returning `none` if the book is absent or either side has no
orders.  Embeds `get_midpoint_value` (`algorithm.py` lines 31-43); the
exchange read `get_last_price_book` is modelled by passing the fetched
book (`none` for a missing / falsy book) as the argument. -/
def get_midpoint_value (order_book : Option OrderBook) : Option ℚ :=
  match order_book with
  | none => none
  | some ob =>
    match ob.bids, ob.asks with
    | b :: _, a :: _ => some ((b + a) / 2)
    | _, _ => none

/-- Calculates the current fair call or put value based on Black-Scholes
assumptions.  Embeds `calculate_theoretical_option_value` (`algorithm.py`
lines 46-66).  The external collaborators are passed in explicitly:
`time_to_expiry` stands for `calculate_current_time_to_date(expiry_date)`
and `call_value` / `put_value` for the external `black_scholes` library
functions (arguments in the order S, K, T, r, sigma).  The `raise` on an
unexpected `callput` is modelled as `Except.error`. -/
def calculate_theoretical_option_value (time_to_expiry strike : ℚ)
    (callput : String) (stock_value interest_rate volatility : ℚ)
    (call_value put_value : ℚ → ℚ → ℚ → ℚ → ℚ → ℚ) : Except String ℚ :=
  if callput = "call" then
    Except.ok (call_value stock_value strike time_to_expiry interest_rate volatility)
  else if callput = "put" then
    Except.ok (put_value stock_value strike time_to_expiry interest_rate volatility)
  else
    Except.error ("Got unexpected value for callput argument, should be " ++
      "'call' or 'put' but was " ++ callput ++ ".")

/-- Calculates the current option delta based on Black-Scholes assumptions.
Embeds `calculate_option_delta` (`algorithm.py` lines 69-89), with the
external `call_delta` / `put_delta` functions passed in explicitly. -/
def calculate_option_delta (time_to_expiry strike : ℚ)
    (callput : String) (stock_value interest_rate volatility : ℚ)
    (call_delta put_delta : ℚ → ℚ → ℚ → ℚ → ℚ → ℚ) : Except String ℚ :=
  if callput = "call" then
    Except.ok (call_delta stock_value strike time_to_expiry interest_rate volatility)
  else if callput = "put" then
    Except.ok (put_delta stock_value strike time_to_expiry interest_rate volatility)
  else
    Except.error ("Got unexpected value for callput argument, should be " ++
      "'call' or 'put' but was " ++ callput ++ ".")

/-- One observable interaction of the script with the exchange SDK (or a
`time.sleep`); console printing is not modelled. -/
inductive Event where
  | pollTrades (instrument_id : String)
  | getOutstandingOrders (instrument_id : String)
  | deleteOrder (instrument_id order_id : String)
  | getPositions
  | insertOrder (instrument_id : String) (price : ℚ) (volume : ℤ) (side : Side)
  | sleep (seconds : ℚ)
deriving DecidableEq, Repr

/-- Boolean test for an order deletion (`exchange.delete_order`). -/
def Event.isDelete : Event → Bool
  | .deleteOrder _ _ => true
  | _ => false

/-- Boolean test for an order insertion (`exchange.insert_order`). -/
def Event.isInsert : Event → Bool
  | .insertOrder _ _ _ _ => true
  | _ => false

/-- Boolean test for a bid-side order insertion. -/
def Event.isBidInsert : Event → Bool
  | .insertOrder _ _ _ Side.bid => true
  | _ => false

/-- Boolean test for an ask-side order insertion. -/
def Event.isAskInsert : Event → Bool
  | .insertOrder _ _ _ Side.ask => true
  | _ => false

/-- Maximum volume the script will bid for:
`min(volume, position_limit - position)` (`algorithm.py` lines 127, 130). -/
def bid_volume (volume position_limit position : ℤ) : ℤ :=
  min volume (position_limit - position)

/-- Maximum volume the script will offer:
`min(volume, position_limit + position)` (`algorithm.py` lines 128, 131). -/
def ask_volume (volume position_limit position : ℤ) : ℤ :=
  min volume (position_limit + position)

/-- Updates the quotes for `option_id`: polls new trades (printing only),
pulls all outstanding orders, computes bid/ask prices from the theoretical
price and credit, reads the fresh position, and inserts a bid and/or ask
limit order when the position-limit-clamped volume is strictly positive.
Embeds `update_quotes` (`algorithm.py` lines 92-151) as the trace of
exchange interactions it performs; the values the exchange returns
(`outstanding` orders and the fresh `position`) are inputs. -/
def update_quotes (option_id : String) (theoretical_price credit : ℚ)
    (volume position_limit : ℤ) (tick_size : ℚ)
    (outstanding : List (String × Order)) (position : ℤ) : List Event :=
  let bid_price := round_down_to_tick (theoretical_price - credit) tick_size
  let ask_price := round_up_to_tick (theoretical_price + credit) tick_size
  [Event.pollTrades option_id, Event.getOutstandingOrders option_id]
    ++ outstanding.map (fun o => Event.deleteOrder option_id o.1)
    ++ [Event.getPositions]
    ++ (if bid_volume volume position_limit position > 0 then
          [Event.insertOrder option_id bid_price
            (bid_volume volume position_limit position) Side.bid]
        else [])
    ++ (if ask_volume volume position_limit position > 0 then
          [Event.insertOrder option_id ask_price
            (ask_volume volume position_limit position) Side.ask]
        else [])

/-- Hedges the outstanding delta position.  In the source
(`algorithm.py` lines 154-180) the function only reads the positions and
prints them; the hedge itself is explicitly not implemented.  Its trace is
therefore the single `get_positions` call. -/
def hedge_delta_position (_stock_id : String) (_options : List String)
    (_stock_value : ℚ) : List Event :=
  [Event.getPositions]

/-- Static description of one quoted option (`algorithm.py` lines 185-190):
instrument id, expiry date (year, month, day), strike and call/put kind. -/
structure OptionSpec where
  id : String
  expiry_date : ℕ × ℕ × ℕ
  strike : ℚ
  callput : String
deriving DecidableEq, Repr

/-- The underlying stock instrument id (`algorithm.py` line 184). -/
def STOCK_ID : String := "BMW"

/-- The fixed list of quoted options (`algorithm.py` lines 185-190). -/
def OPTIONS : List OptionSpec :=
  [ { id := "BMW-2021_12_10-075C", expiry_date := (2021, 12, 10), strike := 75, callput := "call" },
    { id := "BMW-2021_12_10-075P", expiry_date := (2021, 12, 10), strike := 75, callput := "put" },
    { id := "BMW-2022_01_14-075C", expiry_date := (2022, 1, 14), strike := 75, callput := "call" },
    { id := "BMW-2022_01_14-075P", expiry_date := (2022, 1, 14), strike := 75, callput := "put" } ]

/-- One iteration of the infinite trade loop (`algorithm.py` lines
192-232) as the trace of exchange interactions and sleeps it performs.
If the stock midpoint is unavailable the iteration sleeps 4 seconds and
retries (`continue`); otherwise it updates the quotes of every option
(credit 0.15, volume 3, position limit 100, tick size 0.10, sleeping 0.1s
after each), hedges the delta position once, and sleeps 4 seconds.
The exchange responses are inputs: `stock_book` is the fetched stock
price book, `outstanding` and `positions` the per-instrument exchange
state, and `theoretical_value` the per-option result of
`calculate_theoretical_option_value` (which delegates to the external
Black-Scholes library). -/
def trade_loop_iteration (stock_book : Option OrderBook)
    (theoretical_value : OptionSpec → ℚ → ℚ)
    (outstanding : String → List (String × Order))
    (positions : String → ℤ) : List Event :=
  match get_midpoint_value stock_book with
  | none => [Event.sleep 4]
  | some stock_value =>
    (OPTIONS.flatMap (fun o =>
        update_quotes o.id (theoretical_value o stock_value) (15/100) 3 100 (1/10)
          (outstanding o.id) (positions o.id)
        ++ [Event.sleep (1/10)]))
      ++ hedge_delta_position STOCK_ID (OPTIONS.map (fun o => o.id)) stock_value
      ++ [Event.sleep 4]

/-- Rounding down to a positive tick never increases the price. -/
theorem round_down_le (price tick : ℚ) (ht : 0 < tick) :
    round_down_to_tick price tick ≤ price := by
  unfold round_down_to_tick
  calc (⌊price / tick⌋ : ℚ) * tick
      ≤ (price / tick) * tick := mul_le_mul_of_nonneg_right (Int.floor_le _) ht.le
    _ = price := div_mul_cancel₀ price ht.ne'

/-- The price rounded down plus one tick strictly exceeds the price. -/
theorem lt_round_down_add_tick (price tick : ℚ) (ht : 0 < tick) :
    price < round_down_to_tick price tick + tick := by
  unfold round_down_to_tick
  calc price
      = (price / tick) * tick := (div_mul_cancel₀ price ht.ne').symm
    _ < ((⌊price / tick⌋ : ℚ) + 1) * tick :=
        mul_lt_mul_of_pos_right (Int.lt_floor_add_one _) ht
    _ = (⌊price / tick⌋ : ℚ) * tick + tick := by ring

/-- Rounding up to a positive tick never decreases the price. -/
theorem le_round_up (price tick : ℚ) (ht : 0 < tick) :
    price ≤ round_up_to_tick price tick := by
  unfold round_up_to_tick
  calc price
      = (price / tick) * tick := (div_mul_cancel₀ price ht.ne').symm
    _ ≤ (⌈price / tick⌉ : ℚ) * tick := mul_le_mul_of_nonneg_right (Int.le_ceil _) ht.le

/-- The price rounded up minus one tick is strictly below the price. -/
theorem round_up_sub_tick_lt (price tick : ℚ) (ht : 0 < tick) :
    round_up_to_tick price tick - tick < price := by
  unfold round_up_to_tick
  have h : (⌈price / tick⌉ : ℚ) * tick < (price / tick + 1) * tick :=
    mul_lt_mul_of_pos_right (Int.ceil_lt_add_one _) ht
  have h2 : (price / tick + 1) * tick = price + tick := by
    field_simp
  linarith

/-- Every integer multiple of the tick that is at most the price is at most
the price rounded down. -/
theorem round_down_greatest (price tick : ℚ) (ht : 0 < tick) (k : ℤ)
    (hk : (k : ℚ) * tick ≤ price) :
    (k : ℚ) * tick ≤ round_down_to_tick price tick := by
  unfold round_down_to_tick
  have h1 : (k : ℚ) ≤ price / tick := (le_div_iff₀ ht).mpr hk
  have h2 : k ≤ ⌊price / tick⌋ := Int.le_floor.mpr h1
  exact mul_le_mul_of_nonneg_right (by exact_mod_cast h2) ht.le

/-- Every integer multiple of the tick that is at least the price is at
least the price rounded up. -/
theorem round_up_least (price tick : ℚ) (ht : 0 < tick) (k : ℤ)
    (hk : price ≤ (k : ℚ) * tick) :
    round_up_to_tick price tick ≤ (k : ℚ) * tick := by
  unfold round_up_to_tick
  have h1 : price / tick ≤ (k : ℚ) := (div_le_iff₀ ht).mpr hk
  have h2 : ⌈price / tick⌉ ≤ k := Int.ceil_le.mpr h1
  exact mul_le_mul_of_nonneg_right (by exact_mod_cast h2) ht.le

/-- C4: for every price and every tick_size > 0, `round_down_to_tick` is
the largest integer multiple of the tick that is at most the price (it is
a multiple, is at most the price, exceeds it when one more tick is added,
and dominates every multiple below the price), and `round_up_to_tick` is
the smallest integer multiple of the tick that is at least the price. -/
theorem round_to_tick_correct (price tick_size : ℚ) (ht : 0 < tick_size) :
    (∃ k : ℤ, round_down_to_tick price tick_size = (k : ℚ) * tick_size)
    ∧ round_down_to_tick price tick_size ≤ price
    ∧ price < round_down_to_tick price tick_size + tick_size
    ∧ (∀ k : ℤ, (k : ℚ) * tick_size ≤ price →
        (k : ℚ) * tick_size ≤ round_down_to_tick price tick_size)
    ∧ (∃ k : ℤ, round_up_to_tick price tick_size = (k : ℚ) * tick_size)
    ∧ price ≤ round_up_to_tick price tick_size
    ∧ round_up_to_tick price tick_size - tick_size < price
    ∧ (∀ k : ℤ, price ≤ (k : ℚ) * tick_size →
        round_up_to_tick price tick_size ≤ (k : ℚ) * tick_size) :=
  ⟨⟨⌊price / tick_size⌋, rfl⟩,
   round_down_le price tick_size ht,
   lt_round_down_add_tick price tick_size ht,
   fun k hk => round_down_greatest price tick_size ht k hk,
   ⟨⌈price / tick_size⌉, rfl⟩,
   le_round_up price tick_size ht,
   round_up_sub_tick_lt price tick_size ht,
   fun k hk => round_up_least price tick_size ht k hk⟩

/-- Witness for C4: the rounding contract evaluated at price 0.97 and
tick size 0.10 (the docstring example: rounding down gives 0.90). -/
theorem round_to_tick_correct_witness :
    (0 : ℚ) < 1/10
    ∧ ((∃ k : ℤ, round_down_to_tick (97/100) (1/10) = (k : ℚ) * (1/10))
       ∧ round_down_to_tick (97/100) (1/10) ≤ 97/100
       ∧ (97/100 : ℚ) < round_down_to_tick (97/100) (1/10) + 1/10
       ∧ (∀ k : ℤ, (k : ℚ) * (1/10) ≤ 97/100 →
           (k : ℚ) * (1/10) ≤ round_down_to_tick (97/100) (1/10))
       ∧ (∃ k : ℤ, round_up_to_tick (97/100) (1/10) = (k : ℚ) * (1/10))
       ∧ (97/100 : ℚ) ≤ round_up_to_tick (97/100) (1/10)
       ∧ round_up_to_tick (97/100) (1/10) - 1/10 < 97/100
       ∧ (∀ k : ℤ, (97/100 : ℚ) ≤ (k : ℚ) * (1/10) →
           round_up_to_tick (97/100) (1/10) ≤ (k : ℚ) * (1/10))) :=
  ⟨by norm_num, round_to_tick_correct (97/100) (1/10) (by norm_num)⟩

/-- C9: `round_down_to_tick` is idempotent for a positive tick size:
rounding down an already rounded-down price changes nothing. -/
theorem round_down_idempotent (x t : ℚ) (ht : 0 < t) :
    round_down_to_tick (round_down_to_tick x t) t = round_down_to_tick x t := by
  unfold round_down_to_tick
  rw [mul_div_cancel_right₀ _ ht.ne', Int.floor_intCast]

/-- Witness for C9: idempotence evaluated at x = 0.97, t = 0.10. -/
theorem round_down_idempotent_witness :
    round_down_to_tick (round_down_to_tick (97/100) (1/10)) (1/10)
      = round_down_to_tick (97/100) (1/10) :=
  round_down_idempotent (97/100) (1/10) (by norm_num)

/-- C3: with a strictly positive credit and tick size, the bid price
computed by `update_quotes` (theoretical price minus credit, rounded
down) is at most the ask price (theoretical price plus credit, rounded
up). -/
theorem bid_price_le_ask_price (theoretical_price credit tick_size : ℚ)
    (hc : 0 < credit) (ht : 0 < tick_size) :
    round_down_to_tick (theoretical_price - credit) tick_size
      ≤ round_up_to_tick (theoretical_price + credit) tick_size := by
  have h1 := round_down_le (theoretical_price - credit) tick_size ht
  have h2 := le_round_up (theoretical_price + credit) tick_size ht
  linarith

/-- C1: whenever the freshly-read position is within the position limit,
any fills `b` within the placed bid volume and `a` within the placed ask
volume leave the resulting position `position + b - a` within the limit
(fills are assumed atomic between iterations). -/
theorem position_limit_preserved (volume position_limit position b a : ℤ)
    (hp : |position| ≤ position_limit)
    (hb0 : 0 ≤ b) (hb : b ≤ bid_volume volume position_limit position)
    (ha0 : 0 ≤ a) (ha : a ≤ ask_volume volume position_limit position) :
    |position + b - a| ≤ position_limit := by
  rw [abs_le] at hp ⊢
  simp only [bid_volume, ask_volume] at hb ha
  omega

/-- Witness for C1: position 98, limit 100, target volume 3, bid fill 2,
ask fill 1 leaves the position at 99, inside the limit. -/
theorem position_limit_preserved_witness :
    |(98 : ℤ)| ≤ 100 ∧ (0 : ℤ) ≤ 2 ∧ (2 : ℤ) ≤ bid_volume 3 100 98
    ∧ (0 : ℤ) ≤ 1 ∧ (1 : ℤ) ≤ ask_volume 3 100 98
    ∧ |(98 : ℤ) + 2 - 1| ≤ 100 :=
  ⟨by decide, by decide, by decide, by decide, by decide,
   position_limit_preserved 3 100 98 2 1 (by decide) (by decide) (by decide)
     (by decide) (by decide)⟩

/-- C2: the bid volume is `min(volume, position_limit - position)` and the
ask volume is `min(volume, position_limit + position)`; `update_quotes`
inserts an order on a side exactly when that side's volume is strictly
positive (and then with exactly that volume and the rounded price).  In
particular with limit 100, position 98 and target volume 3 the volumes are
2 and 3, and at position 100 no bid is placed while the ask volume is 3. -/
theorem update_quotes_sizing (option_id : String) (tp credit : ℚ)
    (volume pl : ℤ) (t : ℚ) (outstanding : List (String × Order)) (p : ℤ) :
    bid_volume volume pl p = min volume (pl - p)
    ∧ ask_volume volume pl p = min volume (pl + p)
    ∧ (0 < bid_volume volume pl p →
        Event.insertOrder option_id (round_down_to_tick (tp - credit) t)
          (bid_volume volume pl p) Side.bid
          ∈ update_quotes option_id tp credit volume pl t outstanding p)
    ∧ (bid_volume volume pl p ≤ 0 → ∀ pr v,
        Event.insertOrder option_id pr v Side.bid
          ∉ update_quotes option_id tp credit volume pl t outstanding p)
    ∧ (0 < ask_volume volume pl p →
        Event.insertOrder option_id (round_up_to_tick (tp + credit) t)
          (ask_volume volume pl p) Side.ask
          ∈ update_quotes option_id tp credit volume pl t outstanding p)
    ∧ (ask_volume volume pl p ≤ 0 → ∀ pr v,
        Event.insertOrder option_id pr v Side.ask
          ∉ update_quotes option_id tp credit volume pl t outstanding p)
    ∧ bid_volume 3 100 98 = 2 ∧ ask_volume 3 100 98 = 3
    ∧ bid_volume 3 100 100 = 0 ∧ ask_volume 3 100 100 = 3 := by
  refine ⟨rfl, rfl, ?_, ?_, ?_, ?_, by decide, by decide, by decide, by decide⟩
  · intro hb
    simp [update_quotes, hb, List.mem_append]
  · intro hb pr v
    simp [update_quotes, not_lt.mpr hb, List.mem_append, List.mem_map]
  · intro ha
    simp [update_quotes, ha, List.mem_append]
  · intro ha pr v
    simp [update_quotes, not_lt.mpr ha, List.mem_append, List.mem_map]

/-- Witness for C2: at position 98 with limit 100 and target volume 3 the
bid for 2 lots is actually inserted. -/
theorem update_quotes_sizing_witness :
    (0 : ℤ) < bid_volume 3 100 98
    ∧ Event.insertOrder "x" (round_down_to_tick (75 - 15/100) (1/10))
        (bid_volume 3 100 98) Side.bid
        ∈ update_quotes "x" 75 (15/100) 3 100 (1/10) [] 98 :=
  ⟨by decide,
   (update_quotes_sizing "x" 75 (15/100) 3 100 (1/10) [] 98).2.2.1 (by decide)⟩

/-- C6: `get_midpoint_value` returns the average of the best bid and best
ask whenever both sides of the fetched book are non-empty, and `none`
when the book is missing or either side is empty; in particular best bid
74.90 and best ask 75.10 give midpoint 75.00, and empty asks give
`none`. -/
theorem get_midpoint_value_correct :
    (∀ (b a : ℚ) (bs as2 : List ℚ),
      get_midpoint_value (some ⟨b :: bs, a :: as2⟩) = some ((b + a) / 2))
    ∧ (∀ ob : OrderBook, ob.bids = [] ∨ ob.asks = [] →
        get_midpoint_value (some ob) = none)
    ∧ get_midpoint_value none = none
    ∧ get_midpoint_value (some ⟨[749/10], [751/10]⟩) = some 75
    ∧ get_midpoint_value (some ⟨[749/10], []⟩) = none := by
  refine ⟨fun b a bs as2 => rfl, ?_, rfl, ?_, rfl⟩
  · rintro ⟨bids, asks⟩ (h | h) <;> subst h <;>
      first
        | rfl
        | (cases bids with
            | nil => rfl
            | cons b bs => rfl)
  · show some ((749/10 + 751/10) / 2 : ℚ) = some 75
    norm_num

/-- Witness for C6: a book with a bid side but empty asks yields `none`. -/
theorem get_midpoint_value_correct_witness :
    get_midpoint_value (some ⟨[749/10], []⟩) = none :=
  get_midpoint_value_correct.2.1 ⟨[749/10], []⟩ (Or.inr rfl)

/-- C7: both pricing functions dispatch on `callput`: the string "call"
routes to the call formula, "put" routes to the put formula, and the
documented error is returned exactly when `callput` is neither. -/
theorem callput_dispatch (t2e strike : ℚ) (callput : String) (S r sig : ℚ)
    (cv pv cd pd : ℚ → ℚ → ℚ → ℚ → ℚ → ℚ) :
    (callput = "call" →
      calculate_theoretical_option_value t2e strike callput S r sig cv pv
          = Except.ok (cv S strike t2e r sig)
      ∧ calculate_option_delta t2e strike callput S r sig cd pd
          = Except.ok (cd S strike t2e r sig))
    ∧ (callput = "put" →
      calculate_theoretical_option_value t2e strike callput S r sig cv pv
          = Except.ok (pv S strike t2e r sig)
      ∧ calculate_option_delta t2e strike callput S r sig cd pd
          = Except.ok (pd S strike t2e r sig))
    ∧ ((∃ msg, calculate_theoretical_option_value t2e strike callput S r sig cv pv
          = Except.error msg) ↔ (callput ≠ "call" ∧ callput ≠ "put"))
    ∧ ((∃ msg, calculate_option_delta t2e strike callput S r sig cd pd
          = Except.error msg) ↔ (callput ≠ "call" ∧ callput ≠ "put")) := by
  by_cases h1 : callput = "call"
  · subst h1
    exact ⟨fun _ => ⟨rfl, rfl⟩, fun h => absurd h (by decide),
      by simp [calculate_theoretical_option_value],
      by simp [calculate_option_delta]⟩
  · by_cases h2 : callput = "put"
    · subst h2
      exact ⟨fun h => absurd h h1, fun _ => ⟨rfl, rfl⟩,
        by simp [calculate_theoretical_option_value, h1],
        by simp [calculate_option_delta, h1]⟩
    · exact ⟨fun h => absurd h h1, fun h => absurd h h2,
        by simp [calculate_theoretical_option_value, h1, h2],
        by simp [calculate_option_delta, h1, h2]⟩

/-- Witness for C7: dispatching on the invalid kind "straddle" yields the
documented error for the value function. -/
theorem callput_dispatch_witness :
    ∃ msg, calculate_theoretical_option_value 1 75 "straddle" 75 0 3
      (fun _ _ _ _ _ => 0) (fun _ _ _ _ _ => 0) = Except.error msg :=
  (callput_dispatch 1 75 "straddle" 75 0 3
      (fun _ _ _ _ _ => 0) (fun _ _ _ _ _ => 0)
      (fun _ _ _ _ _ => 0) (fun _ _ _ _ _ => 0)).2.2.1.mpr
    ⟨by decide, by decide⟩

/-- Witness for C3: the bid/ask ordering at the loop's parameters
(theoretical price 75, credit 0.15, tick size 0.10). -/
theorem bid_price_le_ask_price_witness :
    (0 : ℚ) < 15/100 ∧ (0 : ℚ) < 1/10
    ∧ round_down_to_tick (75 - 15/100) (1/10) ≤ round_up_to_tick (75 + 15/100) (1/10) :=
  ⟨by norm_num, by norm_num,
   bid_price_le_ask_price 75 (15/100) (1/10) (by norm_num) (by norm_num)⟩

/-- In a concatenation whose first part contains no `Q`-element and whose
second part contains no `P`-element, every index of a `P`-element lies
strictly before every index of a `Q`-element. -/
theorem index_lt_of_eq_append {α : Type} (P Q : α → Prop) (tr l1 l2 : List α)
    (htr : tr = l1 ++ l2)
    (h1 : ∀ e ∈ l1, ¬ Q e) (h2 : ∀ e ∈ l2, ¬ P e)
    (i j : ℕ) (hi : i < tr.length) (hj : j < tr.length)
    (hP : P (tr.get ⟨i, hi⟩)) (hQ : Q (tr.get ⟨j, hj⟩)) : i < j := by
  subst htr
  have hil : i < l1.length := by
    by_contra hc
    push_neg at hc
    rw [List.get_eq_getElem, List.getElem_append_right hc] at hP
    exact h2 _ (List.getElem_mem _) hP
  have hjl : l1.length ≤ j := by
    by_contra hc
    push_neg at hc
    rw [List.get_eq_getElem, List.getElem_append_left hc] at hQ
    exact h1 _ (List.getElem_mem _) hQ
  omega

/-- Membership in a conditional singleton insertion forces the element to
be that insertion event. -/
theorem eq_of_mem_if_insert {c : Prop} [Decidable c] {oid : String}
    {pr : ℚ} {v : ℤ} {s : Side} {e : Event}
    (he : e ∈ if c then [Event.insertOrder oid pr v s] else []) :
    e = Event.insertOrder oid pr v s := by
  split at he
  · simpa using he
  · simp at he

/-- Order deletions contribute nothing to the bid-insertion count. -/
theorem countP_deletes_bid (oid : String) (l : List (String × Order)) :
    List.countP (Event.isBidInsert ∘ fun o => Event.deleteOrder oid o.1) l = 0 := by
  simp [List.countP_eq_zero, Event.isBidInsert]

/-- Order deletions contribute nothing to the ask-insertion count. -/
theorem countP_deletes_ask (oid : String) (l : List (String × Order)) :
    List.countP (Event.isAskInsert ∘ fun o => Event.deleteOrder oid o.1) l = 0 := by
  simp [List.countP_eq_zero, Event.isAskInsert]

/-- C5: in every `update_quotes` trace, every deletion of an outstanding
order occurs strictly before every insertion of a new order: no new order
is inserted until all outstanding orders have been deleted. -/
theorem deletes_before_inserts (option_id : String) (tp credit : ℚ)
    (volume pl : ℤ) (t : ℚ) (outstanding : List (String × Order)) (p : ℤ)
    (i j : ℕ)
    (hi : i < (update_quotes option_id tp credit volume pl t outstanding p).length)
    (hj : j < (update_quotes option_id tp credit volume pl t outstanding p).length)
    (hdel : ((update_quotes option_id tp credit volume pl t outstanding p).get
      ⟨i, hi⟩).isDelete = true)
    (hins : ((update_quotes option_id tp credit volume pl t outstanding p).get
      ⟨j, hj⟩).isInsert = true) :
    i < j := by
  refine index_lt_of_eq_append (fun e => e.isDelete = true) (fun e => e.isInsert = true)
    (update_quotes option_id tp credit volume pl t outstanding p)
    ([Event.pollTrades option_id, Event.getOutstandingOrders option_id]
      ++ outstanding.map (fun o => Event.deleteOrder option_id o.1)
      ++ [Event.getPositions])
    ((if bid_volume volume pl p > 0 then
        [Event.insertOrder option_id (round_down_to_tick (tp - credit) t)
          (bid_volume volume pl p) Side.bid]
      else [])
      ++ (if ask_volume volume pl p > 0 then
        [Event.insertOrder option_id (round_up_to_tick (tp + credit) t)
          (ask_volume volume pl p) Side.ask]
      else []))
    ?_ ?_ ?_ i j hi hj hdel hins
  · simp [update_quotes, List.append_assoc]
  · intro e he
    simp only [List.mem_append, List.mem_cons, List.not_mem_nil, or_false,
      List.mem_map, List.mem_singleton] at he
    rcases he with ((rfl | rfl) | ⟨o, _, rfl⟩) | rfl <;> simp [Event.isInsert]
  · intro e he
    simp only [List.mem_append] at he
    rcases he with he | he <;> rw [eq_of_mem_if_insert he] <;> simp [Event.isDelete]

/-- Witness for C5: with one outstanding order and zero position, the
deletion at index 2 precedes the bid insertion at index 4. -/
theorem deletes_before_inserts_witness :
    ((update_quotes "x" 75 (15/100) 3 100 (1/10)
      [("o1", ⟨Side.bid, 3, 75⟩)] 0).get ⟨2, by decide⟩).isDelete = true
    ∧ ((update_quotes "x" 75 (15/100) 3 100 (1/10)
      [("o1", ⟨Side.bid, 3, 75⟩)] 0).get ⟨4, by decide⟩).isInsert = true
    ∧ (2 : ℕ) < 4 :=
  ⟨by decide, by decide,
   deletes_before_inserts "x" 75 (15/100) 3 100 (1/10)
     [("o1", ⟨Side.bid, 3, 75⟩)] 0 2 4 (by decide) (by decide)
     (by decide) (by decide)⟩

/-- C10: each `update_quotes` invocation inserts at most one bid order and
at most one ask order (hence at most two orders), and whenever both are
inserted the bid insertion occurs strictly before the ask insertion. -/
theorem at_most_two_inserts (option_id : String) (tp credit : ℚ)
    (volume pl : ℤ) (t : ℚ) (outstanding : List (String × Order)) (p : ℤ) :
    (update_quotes option_id tp credit volume pl t outstanding p).countP
        Event.isBidInsert ≤ 1
    ∧ (update_quotes option_id tp credit volume pl t outstanding p).countP
        Event.isAskInsert ≤ 1
    ∧ ∀ (i j : ℕ)
        (hi : i < (update_quotes option_id tp credit volume pl t outstanding p).length)
        (hj : j < (update_quotes option_id tp credit volume pl t outstanding p).length),
        ((update_quotes option_id tp credit volume pl t outstanding p).get
          ⟨i, hi⟩).isBidInsert = true →
        ((update_quotes option_id tp credit volume pl t outstanding p).get
          ⟨j, hj⟩).isAskInsert = true →
        i < j := by
  refine ⟨?_, ?_, ?_⟩
  · by_cases hb : bid_volume volume pl p > 0 <;>
      by_cases ha : ask_volume volume pl p > 0 <;>
      simp [update_quotes, hb, ha, List.countP_append, List.countP_cons,
        Event.isBidInsert, countP_deletes_bid]
  · by_cases hb : bid_volume volume pl p > 0 <;>
      by_cases ha : ask_volume volume pl p > 0 <;>
      simp [update_quotes, hb, ha, List.countP_append, List.countP_cons,
        Event.isAskInsert, countP_deletes_ask]
  · intro i j hi hj hbid hask
    refine index_lt_of_eq_append (fun e => e.isBidInsert = true)
      (fun e => e.isAskInsert = true)
      (update_quotes option_id tp credit volume pl t outstanding p)
      ([Event.pollTrades option_id, Event.getOutstandingOrders option_id]
        ++ outstanding.map (fun o => Event.deleteOrder option_id o.1)
        ++ [Event.getPositions]
        ++ (if bid_volume volume pl p > 0 then
            [Event.insertOrder option_id (round_down_to_tick (tp - credit) t)
              (bid_volume volume pl p) Side.bid]
          else []))
      (if ask_volume volume pl p > 0 then
        [Event.insertOrder option_id (round_up_to_tick (tp + credit) t)
          (ask_volume volume pl p) Side.ask]
      else [])
      ?_ ?_ ?_ i j hi hj hbid hask
    · simp [update_quotes, List.append_assoc]
    · intro e he
      simp only [List.mem_append, List.mem_cons, List.not_mem_nil, or_false,
        List.mem_map, List.mem_singleton] at he
      rcases he with (((rfl | rfl) | ⟨o, _, rfl⟩) | rfl) | he
      · simp [Event.isAskInsert]
      · simp [Event.isAskInsert]
      · simp [Event.isAskInsert]
      · simp [Event.isAskInsert]
      · rw [eq_of_mem_if_insert he]
        simp [Event.isAskInsert]
    · intro e he
      rw [eq_of_mem_if_insert he]
      simp [Event.isBidInsert]

/-- Witness for C10: with no outstanding orders and zero position, the bid
insertion at index 3 precedes the ask insertion at index 4. -/
theorem at_most_two_inserts_witness :
    ((update_quotes "x" 75 (15/100) 3 100 (1/10) [] 0).get
      ⟨3, by decide⟩).isBidInsert = true
    ∧ ((update_quotes "x" 75 (15/100) 3 100 (1/10) [] 0).get
      ⟨4, by decide⟩).isAskInsert = true
    ∧ (3 : ℕ) < 4 :=
  ⟨by decide, by decide,
   (at_most_two_inserts "x" 75 (15/100) 3 100 (1/10) [] 0).2.2 3 4
     (by decide) (by decide) (by decide) (by decide)⟩

/-- C8: in any trade-loop iteration in which the stock midpoint is
unavailable, the whole cycle is skipped: no trades are polled, no orders
are deleted or inserted, the positions are never read (so the hedger is
not invoked), and the iteration consists of the single 4-second sleep
before retrying. -/
theorem skip_cycle_on_missing_midpoint (stock_book : Option OrderBook)
    (theoretical_value : OptionSpec → ℚ → ℚ)
    (outstanding : String → List (String × Order)) (positions : String → ℤ)
    (h : get_midpoint_value stock_book = none) :
    trade_loop_iteration stock_book theoretical_value outstanding positions
        = [Event.sleep 4]
    ∧ (∀ id, Event.pollTrades id
        ∉ trade_loop_iteration stock_book theoretical_value outstanding positions)
    ∧ (∀ id oid, Event.deleteOrder id oid
        ∉ trade_loop_iteration stock_book theoretical_value outstanding positions)
    ∧ (∀ id pr v s, Event.insertOrder id pr v s
        ∉ trade_loop_iteration stock_book theoretical_value outstanding positions)
    ∧ Event.getPositions
        ∉ trade_loop_iteration stock_book theoretical_value outstanding positions
    ∧ Event.sleep 4
        ∈ trade_loop_iteration stock_book theoretical_value outstanding positions := by
  have htr : trade_loop_iteration stock_book theoretical_value outstanding positions
      = [Event.sleep 4] := by
    unfold trade_loop_iteration
    rw [h]
  rw [htr]
  simp

/-- Witness for C8: with no stock order book at all, the iteration is the
single 4-second sleep. -/
theorem skip_cycle_on_missing_midpoint_witness :
    trade_loop_iteration none (fun _ _ => 0) (fun _ => []) (fun _ => 0)
      = [Event.sleep 4] :=
  (skip_cycle_on_missing_midpoint none (fun _ _ => 0) (fun _ => []) (fun _ => 0)
    rfl).1

end Algorithm
